import Mathlib

/-!
Verification development for the pipeswitch daemon: a shallow embedding of
the graph object model (`pipeswitch-lib/src/pw/types.rs`), the state store
(`pipeswitch-lib/src/pw/mod.rs`), the registry dispatcher
(`pipeswitch-lib/src/pw/mainloop.rs`) and the reconciliation daemon
(`pipeswitchd/src/main.rs`), together with theorems about them.

Rust `HashMap`s are embedded as association lists with `mget` / `minsert` /
`mremove` (insert replaces, lookup returns the unique binding); `HashSet`s of
ids as duplicate-free `List Nat` with `sinsert` / membership.  The external
regex engine is abstracted as a function returning the span of capture
group 0 of the first match, which is all the daemon ever consumes.
-/

namespace Pipeswitch

deriving instance DecidableEq for Except

/-- Lookup in an association list, mirroring `HashMap::get`. -/
def mget {κ α : Type} [DecidableEq κ] : List (κ × α) → κ → Option α
  | [], _ => none
  | (k2, v) :: rest, k => if k = k2 then some v else mget rest k

/-- Remove all bindings of a key, mirroring `HashMap::remove`'s effect on the map. -/
def mremove {κ α : Type} [DecidableEq κ] : List (κ × α) → κ → List (κ × α)
  | [], _ => []
  | (k2, v) :: rest, k => if k = k2 then mremove rest k else (k2, v) :: mremove rest k

/-- Insert-or-replace, mirroring `HashMap::insert`'s effect on the map. -/
def minsert {κ α : Type} [DecidableEq κ] (m : List (κ × α)) (k : κ) (v : α) : List (κ × α) :=
  (k, v) :: mremove m k

/-- Key list of a map, mirroring `HashMap::keys`. -/
def mkeys {κ α : Type} (m : List (κ × α)) : List κ := m.map (fun kv => kv.1)

/-- Insert into an id set, mirroring `HashSet::insert`'s effect on the set. -/
def sinsert (s : List Nat) (x : Nat) : List Nat := if x ∈ s then s else x :: s

/-- Union of id sets, mirroring `HashSet::extend`. -/
def sunion (base : List Nat) (extra : List Nat) : List Nat := extra.foldl sinsert base

/-- Compiled-in protocol version (`types.rs`: `pub const VERSION: u32 = 3`). -/
def VERSION : Nat := 3

/-- Reserved property key (`types.rs`: `KEY_RULE_NAME`). -/
def KEY_RULE_NAME : String := "pipeswitch.rule.name"

/-- Object type tags of the registry (`pipewire::types::ObjectType`); `Other`
stands for every tag the store's dispatcher treats via its catch-all arm. -/
inductive ObjectType where
  | Port
  | Node
  | Link
  | Client
  | Factory
  | Other
  deriving DecidableEq

/-- Port direction (`types.rs`: `enum Direction`). -/
inductive Direction where
  | Input
  | Output
  deriving DecidableEq

/-- Audio channel (`types.rs`: `enum Channel`). -/
inductive Channel where
  | Left
  | Right
  | Mono
  deriving DecidableEq

/-- Source `types.rs`: `struct Port`. -/
structure Port where
  id : Nat
  local_port_id : Nat
  path : Option String
  node_id : Nat
  dsp : Option String
  channel : Channel
  name : String
  direction : Direction
  «alias» : String
  physical : Option Bool
  terminal : Option Bool
  deriving DecidableEq

/-- Source `types.rs`: `struct Node`. -/
structure Node where
  id : Nat
  path : Option String
  factory_id : Option Nat
  client_id : Nat
  device_id : Option Nat
  application_name : Option String
  node_description : Option String
  node_name : String
  node_nick : Option String
  media_type : Option String
  media_category : Option String
  media_class : Option String
  media_role : Option String
  deriving DecidableEq

/-- Source `types.rs`: `struct Link`. -/
structure Link where
  id : Nat
  factory_id : Nat
  client_id : Option Nat
  output_node : Nat
  output_port : Nat
  input_node : Nat
  input_port : Nat
  rule_name : Option String
  deriving DecidableEq

/-- Source `types.rs`: `struct Client`. -/
structure Client where
  id : Nat
  module_id : Nat
  protocol : String
  pid : Nat
  uid : Nat
  gid : Nat
  label : String
  application_name : String
  deriving DecidableEq

/-- Source `types.rs`: `struct Factory`. -/
structure Factory where
  id : Nat
  module_id : Nat
  name : String
  type_name : String
  deriving DecidableEq

/-- Source `types.rs`: `enum Object` (aliased `PipewireObject` in `pw/mod.rs`). -/
inductive PipewireObject where
  | Port (p : Port)
  | Node (n : Node)
  | Link (l : Link)
  | Client (c : Client)
  | Factory (f : Factory)
  deriving DecidableEq

/-- Source `pw/mod.rs`: `enum PipewireMessage`. -/
inductive PipewireMessage where
  | NewGlobal (id : Nat) (obj_type : ObjectType) (object : PipewireObject)
  | GlobalRemoved (id : Nat)
  deriving DecidableEq

/-- Source `pw/mod.rs`: `struct PipewireState`: four id-keyed maps, the factories map
keyed by `type_name`, and the reverse index from id to object-type tag. -/
structure PipewireState where
  object_types : List (Nat × ObjectType)
  ports : List (Nat × Port)
  nodes : List (Nat × Node)
  links : List (Nat × Link)
  clients : List (Nat × Client)
  factories : List (String × Factory)
  deriving DecidableEq

/-- The store with no objects (`PipewireState::default`). -/
def emptyState : PipewireState :=
  { object_types := [], ports := [], nodes := [], links := [], clients := [], factories := [] }

/-- Source `pw/mod.rs`: `PipewireState::process_message`.  `NewGlobal` registers the
id in the type index and inserts into the per-type map (ports keyed by the
event id, nodes/links/clients by the payload's own id, factories by
`type_name`); `GlobalRemoved` dispatches on the recorded tag and removes from
the matching map only (the type index is left untouched, as in the source). -/
def process_message (s : PipewireState) :
    PipewireMessage → PipewireState × Option PipewireObject
  | PipewireMessage.NewGlobal id obj_type object =>
    let s1 := { s with object_types := minsert s.object_types id obj_type }
    let s2 := match object with
      | PipewireObject.Port p => { s1 with ports := minsert s1.ports id p }
      | PipewireObject.Node n => { s1 with nodes := minsert s1.nodes n.id n }
      | PipewireObject.Link l => { s1 with links := minsert s1.links l.id l }
      | PipewireObject.Client c => { s1 with clients := minsert s1.clients c.id c }
      | PipewireObject.Factory f => { s1 with factories := minsert s1.factories f.type_name f }
    (s2, some object)
  | PipewireMessage.GlobalRemoved id =>
    match mget s.object_types id with
    | some ObjectType.Port =>
      ({ s with ports := mremove s.ports id }, (mget s.ports id).map PipewireObject.Port)
    | some ObjectType.Node =>
      ({ s with nodes := mremove s.nodes id }, (mget s.nodes id).map PipewireObject.Node)
    | some ObjectType.Link =>
      ({ s with links := mremove s.links id }, (mget s.links id).map PipewireObject.Link)
    | some ObjectType.Client =>
      ({ s with clients := mremove s.clients id }, (mget s.clients id).map PipewireObject.Client)
    | some _ => (s, none)
    | none => (s, none)

/-- Source `pw/mod.rs`: `enum PipewireError` (payload maps dropped from
`PropNotFound` / `MissingProps`; they only feed the log message). -/
inductive PipewireError where
  | ParseIntError
  | ParseBoolError
  | PropNotFound (id : Nat) (t : ObjectType) (key : String)
  | InvalidVersion (v : Nat)
  | MissingProps (id : Nat) (t : ObjectType)
  | InvalidDirection (s : String)
  | InvalidChannel (s : String)
  deriving DecidableEq

/-- An untyped registry global: id, schema version, type tag and the optional
string-keyed property bag (`pipewire::registry::GlobalObject`). -/
structure GlobalObject where
  id : Nat
  version : Nat
  type_ : ObjectType
  props : Option (List (String × String))
  deriving DecidableEq

/-- The payload of a link proxy's info callback (`pipewire::link::LinkInfo`):
routing fields plus the optional property bag.  Link infos carry no schema
version field that the code consults. -/
structure LinkInfo where
  id : Nat
  output_node : Nat
  output_port : Nat
  input_node : Nat
  input_port : Nat
  props : Option (List (String × String))
  deriving DecidableEq

/-- Well-known property keys (`pipewire::keys`). -/
def PORT_ID : String := "port.id"

def NODE_ID : String := "node.id"

def OBJECT_PATH : String := "object.path"

def FORMAT_DSP : String := "format.dsp"

def AUDIO_CHANNEL : String := "audio.channel"

def PORT_NAME : String := "port.name"

def PORT_DIRECTION : String := "port.direction"

def PORT_ALIAS : String := "port.alias"

def PORT_PHYSICAL : String := "port.physical"

def PORT_TERMINAL : String := "port.terminal"

def FACTORY_ID : String := "factory.id"

def CLIENT_ID : String := "client.id"

def DEVICE_ID : String := "device.id"

def APP_NAME : String := "application.name"

def NODE_DESCRIPTION : String := "node.description"

def NODE_NAME : String := "node.name"

def NODE_NICK : String := "node.nick"

def MEDIA_TYPE : String := "media.type"

def MEDIA_CATEGORY : String := "media.category"

def MEDIA_CLASS : String := "media.class"

def MEDIA_ROLE : String := "media.role"

def MODULE_ID : String := "module.id"

def PROTOCOL : String := "pipewire.protocol"

def SEC_PID : String := "pipewire.sec.pid"

def SEC_UID : String := "pipewire.sec.uid"

def SEC_GID : String := "pipewire.sec.gid"

def SEC_LABEL : String := "pipewire.sec.label"

def FACTORY_NAME : String := "factory.name"

def FACTORY_TYPE_NAME : String := "factory.type.name"

/-- The numeric value of a decimal digit character. -/
def digitValue (c : Char) : Option Nat :=
  if c = '0' then some 0 else if c = '1' then some 1 else if c = '2' then some 2
  else if c = '3' then some 3 else if c = '4' then some 4 else if c = '5' then some 5
  else if c = '6' then some 6 else if c = '7' then some 7 else if c = '8' then some 8
  else if c = '9' then some 9 else none

/-- Accumulate a decimal number over a character list. -/
def parseDigits : List Char → Nat → Option Nat
  | [], acc => some acc
  | c :: cs, acc =>
    match digitValue c with
    | some d => parseDigits cs (acc * 10 + d)
    | none => none

/-- Rust `str::parse::<u32>` on a property value: one or more decimal
digits. -/
def parseNat (s : String) : Except PipewireError Nat :=
  match s.data with
  | [] => Except.error PipewireError.ParseIntError
  | cs =>
    match parseDigits cs 0 with
    | some n => Except.ok n
    | none => Except.error PipewireError.ParseIntError

/-- Rust `str::parse::<bool>` (exactly the literals `true` / `false`). -/
def parseBool (s : String) : Except PipewireError Bool :=
  if s = "true" then Except.ok true
  else if s = "false" then Except.ok false
  else Except.error PipewireError.ParseBoolError

/-- Source `Option<&str> -> Result<Option<u32>>` via `.map(parse).transpose()`. -/
def optParseNat : Option String → Except PipewireError (Option Nat)
  | none => Except.ok none
  | some s => (parseNat s).map some

/-- Source `Option<&str> -> Result<Option<bool>>` via `.map(parse).transpose()`. -/
def optParseBool : Option String → Except PipewireError (Option Bool)
  | none => Except.ok none
  | some s => (parseBool s).map some

/-- Required-property lookup: `get_prop_or` in each constructor. -/
def getPropOr (props : List (String × String)) (id : Nat) (t : ObjectType)
    (key : String) : Except PipewireError String :=
  match mget props key with
  | some v => Except.ok v
  | none => Except.error (PipewireError.PropNotFound id t key)

/-- Source `types.rs`: `Direction::from` (exactly the literals `in` / `out`). -/
def Direction.fromString (input : String) : Except PipewireError Direction :=
  if input = "in" then Except.ok Direction.Input
  else if input = "out" then Except.ok Direction.Output
  else Except.error (PipewireError.InvalidDirection input)

/-- Source `types.rs`: `Channel::from_channel` (literals `FL` / `FR` / `MONO`; any
other present value is `InvalidChannel`; an absent property is `Ok(None)`). -/
def Channel.from_channel : Option String → Except PipewireError (Option Channel)
  | none => Except.ok none
  | some input =>
    if input = "FL" then Except.ok (some Channel.Left)
    else if input = "FR" then Except.ok (some Channel.Right)
    else if input = "MONO" then Except.ok (some Channel.Mono)
    else Except.error (PipewireError.InvalidChannel input)

/-- Source `types.rs`: `Channel::from_portid` (0 is Left, 1 is Right, anything else
is `InvalidChannel("port.id {input}")`). -/
def Channel.from_portid (input : Nat) : Except PipewireError Channel :=
  if input = 0 then Except.ok Channel.Left
  else if input = 1 then Except.ok Channel.Right
  else Except.error (PipewireError.InvalidChannel ("port.id " ++ toString input))

/-- Source `types.rs`: `Port::from_global`.  Field initialisers run in source order;
in particular the channel initialiser evaluates
`Channel::from_channel(..)?.unwrap_or(Channel::from_portid(local_port_id)?)`,
and Rust evaluates `unwrap_or`'s argument eagerly, so `from_portid`'s error
propagates even when the audio-channel property is present and valid. -/
def Port.from_global (g : GlobalObject) : Except PipewireError Port :=
  match g.props with
  | none => Except.error (PipewireError.MissingProps g.id ObjectType.Port)
  | some props => do
    let local_port_id ← parseNat (← getPropOr props g.id ObjectType.Port PORT_ID)
    let path := mget props OBJECT_PATH
    let node_id ← parseNat (← getPropOr props g.id ObjectType.Port NODE_ID)
    let dsp := mget props FORMAT_DSP
    let chOpt ← Channel.from_channel (mget props AUDIO_CHANNEL)
    let chFallback ← Channel.from_portid local_port_id
    let name ← getPropOr props g.id ObjectType.Port PORT_NAME
    let direction ← Direction.fromString (← getPropOr props g.id ObjectType.Port PORT_DIRECTION)
    let aliasVal ← getPropOr props g.id ObjectType.Port PORT_ALIAS
    let physical ← optParseBool (mget props PORT_PHYSICAL)
    let terminal ← optParseBool (mget props PORT_TERMINAL)
    Except.ok
      { id := g.id, local_port_id, path, node_id, dsp, channel := chOpt.getD chFallback,
        name, direction, «alias» := aliasVal, physical, terminal }

/-- Source `types.rs`: `Node::from_global`. -/
def Node.from_global (g : GlobalObject) : Except PipewireError Node :=
  match g.props with
  | none => Except.error (PipewireError.MissingProps g.id ObjectType.Node)
  | some props => do
    let factory_id ← optParseNat (mget props FACTORY_ID)
    let client_id ← parseNat (← getPropOr props g.id ObjectType.Node CLIENT_ID)
    let device_id ← optParseNat (mget props DEVICE_ID)
    let node_name ← getPropOr props g.id ObjectType.Node NODE_NAME
    Except.ok
      { id := g.id, path := mget props OBJECT_PATH, factory_id, client_id, device_id,
        application_name := mget props APP_NAME,
        node_description := mget props NODE_DESCRIPTION, node_name,
        node_nick := mget props NODE_NICK, media_type := mget props MEDIA_TYPE,
        media_category := mget props MEDIA_CATEGORY, media_class := mget props MEDIA_CLASS,
        media_role := mget props MEDIA_ROLE }

/-- Source `types.rs`: `Client::from_global`. -/
def Client.from_global (g : GlobalObject) : Except PipewireError Client :=
  match g.props with
  | none => Except.error (PipewireError.MissingProps g.id ObjectType.Client)
  | some props => do
    let module_id ← parseNat (← getPropOr props g.id ObjectType.Client MODULE_ID)
    let protocol ← getPropOr props g.id ObjectType.Client PROTOCOL
    let pid ← parseNat (← getPropOr props g.id ObjectType.Client SEC_PID)
    let uid ← parseNat (← getPropOr props g.id ObjectType.Client SEC_UID)
    let gid ← parseNat (← getPropOr props g.id ObjectType.Client SEC_GID)
    let label ← getPropOr props g.id ObjectType.Client SEC_LABEL
    let application_name ← getPropOr props g.id ObjectType.Client APP_NAME
    Except.ok { id := g.id, module_id, protocol, pid, uid, gid, label, application_name }

/-- Source `types.rs`: `Factory::from_global`. -/
def Factory.from_global (g : GlobalObject) : Except PipewireError Factory :=
  match g.props with
  | none => Except.error (PipewireError.MissingProps g.id ObjectType.Factory)
  | some props => do
    let module_id ← parseNat (← getPropOr props g.id ObjectType.Factory MODULE_ID)
    let name ← getPropOr props g.id ObjectType.Factory FACTORY_NAME
    let type_name ← getPropOr props g.id ObjectType.Factory FACTORY_TYPE_NAME
    Except.ok { id := g.id, module_id, name, type_name }

/-- Source `types.rs`: `Link::from_link_info`: built from an info callback, not from
a registry global, so no schema version is consulted on this path. -/
def Link.from_link_info (info : LinkInfo) : Except PipewireError Link :=
  match info.props with
  | none => Except.error (PipewireError.MissingProps info.id ObjectType.Link)
  | some props => do
    let factory_id ← parseNat (← getPropOr props info.id ObjectType.Link FACTORY_ID)
    let client_id ← optParseNat (mget props CLIENT_ID)
    Except.ok
      { id := info.id, factory_id, client_id, output_node := info.output_node,
        output_port := info.output_port, input_node := info.input_node,
        input_port := info.input_port, rule_name := mget props KEY_RULE_NAME }

/-- Source `types.rs`: `Object::from_global`: rejects a version other than
`VERSION` up front, then dispatches on the type tag; `Link` and unknown types
fall into the catch-all arm and yield `None`. -/
def PipewireObject.from_global (g : GlobalObject) :
    Except PipewireError (Option PipewireObject) :=
  if g.version ≠ VERSION then Except.error (PipewireError.InvalidVersion g.version)
  else
    match g.type_ with
    | ObjectType.Port => (Port.from_global g).map (fun p => some (PipewireObject.Port p))
    | ObjectType.Node => (Node.from_global g).map (fun n => some (PipewireObject.Node n))
    | ObjectType.Client => (Client.from_global g).map (fun c => some (PipewireObject.Client c))
    | ObjectType.Factory => (Factory.from_global g).map (fun f => some (PipewireObject.Factory f))
    | _ => Except.ok none

/-- Outcome of the registry dispatcher for one global event. -/
inductive GlobalResult where
  | admitted (o : PipewireObject)
  | rejected (e : PipewireError)
  | ignored
  deriving DecidableEq

/-- Source `mainloop.rs`: `handle_new_global`.  A `Link` global is special-cased
before any version check: the code binds a proxy and admits the object built
by `Link::from_link_info` from the first info callback (`info` here), calling
`.unwrap()` on the result (`none` models that panic).  Every other type goes
through `Object::from_global`: `Ok(Some)` is admitted into the store,
`Ok(None)` is silently skipped, and `Err` is reported as an `Error` message. -/
def handle_new_global (g : GlobalObject) (info : LinkInfo) : Option GlobalResult :=
  match g.type_ with
  | ObjectType.Link =>
    match Link.from_link_info info with
    | Except.ok l => some (GlobalResult.admitted (PipewireObject.Link l))
    | Except.error _ => none
  | _ =>
    match PipewireObject.from_global g with
    | Except.ok (some o) => some (GlobalResult.admitted o)
    | Except.ok none => some GlobalResult.ignored
    | Except.error e => some (GlobalResult.rejected e)

/-- The state reached after one message (drops the returned object). -/
def applyMsg (s : PipewireState) (m : PipewireMessage) : PipewireState :=
  (process_message s m).1

/-- The state reached after a sequence of messages. -/
def applyMessages (s : PipewireState) : List PipewireMessage → PipewireState
  | [] => s
  | m :: ms => applyMessages (applyMsg s m) ms

/-- Abstract compiled regex: `findFirst text` is the `(start, end)` span of
capture group 0 of the first match of the regex in `text`
(`Regex::captures(text)?.get(0)?` in the source — group 0 is the whole
match), or `none` when the regex does not match. -/
structure Regex where
  findFirst : String → Option (Nat × Nat)

/-- Source `pipeswitch-lib/src/config.rs`: `struct Target` (three optional regex
source strings). -/
structure Target where
  client : Option String
  node : Option String
  port : Option String
  deriving DecidableEq

/-- Source `config.rs`: `enum NodeOrTarget`: a clause is a bare node-name string or
a target triple. -/
inductive NodeOrTarget where
  | NodeName (s : String)
  | Target (t : Target)
  deriving DecidableEq

/-- Source `config.rs`: `struct LinkConfig` (`in` / `out` clauses and the
`special_empty_ports` flag, default true). -/
structure LinkConfig where
  input : NodeOrTarget
  output : NodeOrTarget
  special_empty_ports : Bool
  deriving DecidableEq

/-- Source `config.rs`: `struct General`. -/
structure General where
  linger_links : Bool
  hotreload_config : Bool
  deriving DecidableEq

/-- Source `config.rs`: log levels accepted for `log.level`. -/
inductive LogLevel where
  | err
  | warn
  | info
  | debug
  | trace
  deriving DecidableEq

/-- Source `config.rs`: `struct Logging`. -/
structure Logging where
  level : LogLevel
  deriving DecidableEq

/-- Source `config.rs`: `struct Config` (`links` is the `[link.<name>]` table). -/
structure Config where
  general : General
  log : Logging
  links : List (String × LinkConfig)
  deriving DecidableEq

/-- Source `pipeswitchd/src/main.rs`: `struct Rule`: a compiled rule.  The regex
compiler (`RegexBuilder::new(..).case_insensitive(true).build().unwrap()`)
is abstracted as the `compile` argument of `from_node_or_target`. -/
structure Rule where
  name : String
  client : Option Regex
  node : Option Regex
  port : Option Regex
  matching_ports : List Nat
  special_empty_ports : Bool
  original_config : NodeOrTarget

/-- Source `main.rs`: `impl PartialEq for Rule`: equality compares only the original
source clause; regex objects are never compared. -/
def Rule.eqRule (a b : Rule) : Bool :=
  decide (a.original_config = b.original_config)

/-- Source `main.rs`: `Rule::from_node_or_target`: a bare node name becomes the node
regex (no client or port constraint); a target triple compiles each present
field; either way the original clause is retained. -/
def Rule.from_node_or_target (compile : String → Regex) (name : String) (special : Bool) :
    NodeOrTarget → Rule
  | NodeOrTarget.NodeName node_name =>
    { name, client := none, node := some (compile node_name), port := none,
      matching_ports := [], special_empty_ports := special,
      original_config := NodeOrTarget.NodeName node_name }
  | NodeOrTarget.Target t =>
    { name, client := t.client.map compile, node := t.node.map compile,
      port := t.port.map compile, matching_ports := [], special_empty_ports := special,
      original_config := NodeOrTarget.Target t }

/-- Source `main.rs`: `fn matches_entirely`: some first match whose capture 0 spans
the whole text; `none` when the regex does not match at all. -/
def matches_entirely (regex : Regex) (text : String) : Option Bool :=
  (regex.findFirst text).map (fun m => decide (m.1 = 0) && decide (m.2 = text.length))

/-- Source `main.rs`: `Rule::add_if_matches`, returning the updated rule and the
boolean result.  The port regex (if any) is checked against the port's name;
then the node and client are resolved through the store snapshot and checked
against their regexes (a present regex with an unresolvable target fails). -/
def Rule.add_if_matches (r : Rule) (port : Port) (state : PipewireState) : Rule × Bool :=
  let port_matches : Bool :=
    match r.port with
    | some regex => (matches_entirely regex port.name).getD false
    | none => true
  if port_matches then
    let node := mget state.nodes port.node_id
    let client := node.bind (fun n => mget state.clients n.client_id)
    let node_matches : Bool :=
      match r.node, node with
      | some regex, some n => (matches_entirely regex n.node_name).getD false
      | some _, none => false
      | none, _ => true
    let client_matches : Bool :=
      match r.client, client with
      | some regex, some c => (matches_entirely regex c.application_name).getD false
      | some _, none => false
      | none, _ => true
    if node_matches && client_matches then
      ({ r with matching_ports := sinsert r.matching_ports port.id }, true)
    else (r, false)
  else (r, false)

/-- Source `main.rs`: `Rule::ignore_channel` (identical to
`rules.rs`: `Rule::should_ignore_channel`): channels are ignored unless
`special_empty_ports` is set on the near side and neither side carries a
port regex. -/
def Rule.should_ignore_channel (r other : Rule) : Bool :=
  let ports_some := r.port.isSome || other.port.isSome
  !r.special_empty_ports || ports_some

/-- Source `main.rs`: `struct LinkRules`: the compiled pair of rules for one
`[link.<name>]` block plus the set of owned link ids. -/
structure LinkRules where
  name : String
  input : Rule
  output : Rule
  links : List Nat

/-- Source `main.rs`: `impl From<(String, LinkConfig)> for LinkRules`. -/
def LinkRules.fromCfg (compile : String → Regex) (name : String) (cfg : LinkConfig) : LinkRules :=
  { name,
    input := Rule.from_node_or_target compile name cfg.special_empty_ports cfg.input,
    output := Rule.from_node_or_target compile name cfg.special_empty_ports cfg.output,
    links := [] }

/-- Source `main.rs`: `struct PipeswitchDaemon` (the `pipeswitch` handle lives in
`Env` below). -/
structure PipeswitchDaemon where
  rules : List (String × LinkRules)
  linger_links : Bool

/-- Modelled from the spec: the `Pipeswitch` handle of `pipeswitch-lib`
(its current `lock_current_state`, `create_link` and `destroy_link` are not
under src/; `lib.rs` there is an earlier iteration without them).  Per spec
§4.2/§4.3/§4.5, `lock_current_state` yields the shared store view —
`snapshot` is that view, assumed stable across the lock reacquisitions of one
handler — and `createLink` is the `LinkCreated(Option<Link>)` round-trip
result for a create request (output/input ports and rule name). -/
structure Env where
  snapshot : PipewireState
  createLink : Port → Port → String → Option Link

/-- One link-create request issued by the pairing step, in the argument
order of `self.pipeswitch.create_link(port, old_port, rule_name)`. -/
structure CreateReq where
  newPort : Port
  oldPort : Port
  rule : String
  deriving DecidableEq

/-- The far-side loop of `main.rs`: `new_port_for_rules`: for each id in the
far rule's `matching_ports`, look the port up in the store and unwrap
(`none` models the panic); when the channel guard
`r1.ignore_channel(&r2) || port.channel == old_port.channel` holds, a
create-link request is issued. -/
def farRequests (env : Env) (r1 r2 : Rule) (port : Port) (ruleName : String) :
    List Nat → Option (List CreateReq)
  | [] => some []
  | oldId :: rest =>
    match mget env.snapshot.ports oldId with
    | none => none
    | some oldPort =>
      let tail := farRequests env r1 r2 port ruleName rest
      if r1.should_ignore_channel r2 || decide (port.channel = oldPort.channel) then
        tail.map (fun l => { newPort := port, oldPort := oldPort, rule := ruleName } :: l)
      else tail

/-- One rule's slice of `main.rs`: `new_port_for_rules`: pick the near side
by the port's direction, run `add_if_matches`, and on success walk the far
side's matching ports. -/
def processRule (env : Env) (port : Port) (lr : LinkRules) :
    Option (LinkRules × List CreateReq) :=
  match port.direction with
  | Direction.Input =>
    let pr := lr.input.add_if_matches port env.snapshot
    if pr.2 then
      (farRequests env pr.1 lr.output port lr.name lr.output.matching_ports).map
        (fun reqs => ({ lr with input := pr.1 }, reqs))
    else some ({ lr with input := pr.1 }, [])
  | Direction.Output =>
    let pr := lr.output.add_if_matches port env.snapshot
    if pr.2 then
      (farRequests env pr.1 lr.input port lr.name lr.input.matching_ports).map
        (fun reqs => ({ lr with output := pr.1 }, reqs))
    else some ({ lr with output := pr.1 }, [])

/-- The rule-map traversal of `new_port_for_rules`
(`self.rules.iter_mut().filter(|(n, _)| rules.contains(*n))`). -/
def processRules (env : Env) (port : Port) (names : List String) :
    List (String × LinkRules) → Option (List (String × LinkRules) × List CreateReq)
  | [] => some ([], [])
  | (n, lr) :: rest => do
    let head ← if n ∈ names then processRule env port lr else pure (lr, [])
    let tail ← processRules env port names rest
    pure ((n, head.1) :: tail.1, head.2 ++ tail.2)

/-- Source `main.rs`: `PipeswitchDaemon::new_port_for_rules`, returning the updated
daemon and the create-link requests issued (`none` models the
`state.ports.get(old_port_id).unwrap()` panic). -/
def new_port_for_rules (env : Env) (d : PipeswitchDaemon) (port : Port)
    (names : List String) : Option (PipeswitchDaemon × List CreateReq) :=
  (processRules env port names d.rules).map (fun r => ({ d with rules := r.1 }, r.2))

/-- Whether one rule-map entry attaches an incoming link in
`main.rs`: `PipeswitchDaemon::new_link`: the link's `rule_name` equals the
entry's key and both endpoints lie in the entry's matching-port sets. -/
def linkHits (link : Link) (r : String) (p : String × LinkRules) : Bool :=
  decide (p.1 = r ∧ link.input_port ∈ p.2.input.matching_ports ∧
    link.output_port ∈ p.2.output.matching_ports)

/-- Source `main.rs`: `PipeswitchDaemon::new_link`, returning the updated daemon and
whether destruction of the link was requested
(`!exists && !self.linger_links` guards the `destroy_link` call).  A link
without a `rule_name` falls through the outer `if let` untouched. -/
def new_link (d : PipeswitchDaemon) (link : Link) : PipeswitchDaemon × Bool :=
  match link.rule_name with
  | none => (d, false)
  | some r =>
    let rules2 := d.rules.map (fun p =>
      if linkHits link r p then (p.1, { p.2 with links := sinsert p.2.links link.id }) else p)
    let ex := d.rules.any (linkHits link r)
    ({ d with rules := rules2 }, !ex && !d.linger_links)

/-- One name's iteration of the diff loop in `main.rs`:
`PipeswitchDaemon::update_config`.  The accumulator carries the rule map and
the remaining dirty-name set.  Link destruction (`fetch_links` +
`destroy_link`) touches only the graph server, never the rule map, so it
leaves the accumulator unchanged here; the `(Some(curr), None)` arm likewise
only destroys links and unmarks the name — the source never removes the
entry from `self.rules`. -/
def updateStep (linger : Bool) (compile : String → Regex)
    (configLinks : List (String × LinkConfig))
    (acc : List (String × LinkRules) × List String) (rule_name : String) :
    List (String × LinkRules) × List String :=
  let rules := acc.1
  let dirty := acc.2
  match mget rules rule_name,
      (mget configLinks rule_name).map (fun c => LinkRules.fromCfg compile rule_name c) with
  | some curr, some newR =>
    if newR.input.eqRule curr.input && newR.output.eqRule curr.output then
      -- unchanged: (possibly destroy no-longer-lingered links), unmark the name
      (rules, dirty.filter (fun x => x ≠ rule_name))
    else
      -- changed: replace; when lingering, adopt the old rule's links
      let newR2 := if linger then { newR with links := sunion newR.links curr.links } else newR
      (minsert rules rule_name newR2, dirty)
  | some _, none =>
    -- dropped from the config: destroy its links, unmark — but keep the entry
    (rules, dirty.filter (fun x => x ≠ rule_name))
  | none, some newR => (minsert rules rule_name newR, dirty)
  | none, none => (rules, dirty)

/-- Source `main.rs`: `PipeswitchDaemon::update_config`: update `linger_links`, run
the diff loop over the union of old and new rule names, then re-pair every
known port against the rules still marked dirty (`none` models a panic inside
`new_port_for_rules`).  Logging and the linger-toggle link destruction have
no effect on the daemon's rule state and are omitted. -/
def update_config (env : Env) (compile : String → Regex) (d : PipeswitchDaemon)
    (config : Config) : Option PipeswitchDaemon :=
  let linger := config.general.linger_links
  let dirty0 := (mkeys d.rules ++ mkeys config.links).dedup
  let res := dirty0.foldl (updateStep linger compile config.links) (d.rules, dirty0)
  let d1 : PipeswitchDaemon := { rules := res.1, linger_links := linger }
  let ports := env.snapshot.ports.map (fun kp => kp.2)
  if res.2.length > 0 then
    ports.foldlM (fun dd p => (new_port_for_rules env dd p res.2).map (fun x => x.1)) d1
  else some d1

/-! Specification-side predicates, written from the spec's words, to be
compared with the embedded code. -/

/-- Spec §4.4: a regex "matches the entirety" of a text when the captured
match starts at index 0 and ends at the string's length. -/
def entireMatch (rex : Regex) (text : String) : Prop :=
  ∃ st en, rex.findFirst text = some (st, en) ∧ st = 0 ∧ en = text.length

/-- Spec §4.4 / claim C3: every present regex of the rule matches entirely
against the port's projected strings under the current node/client view; a
present node or client regex whose target does not resolve fails. -/
def ruleMatchSpec (r : Rule) (p : Port) (s : PipewireState) : Prop :=
  (∀ rex, r.port = some rex → entireMatch rex p.name) ∧
  (∀ rex, r.node = some rex →
    ∃ n, mget s.nodes p.node_id = some n ∧ entireMatch rex n.node_name) ∧
  (∀ rex, r.client = some rex →
    ∃ n c, mget s.nodes p.node_id = some n ∧ mget s.clients n.client_id = some c ∧
      entireMatch rex c.application_name)

/-- Direction 1 of claim C5 (spec T1): every id registered in the type index
has an entry in the per-type map matching its tag.  For the `Factory` tag the
entry is a factories binding whose value carries that id; the catch-all tag
has no per-type map, so it imposes nothing. -/
def typeIndexComplete (s : PipewireState) : Prop :=
  ∀ id t, mget s.object_types id = some t →
    (t = ObjectType.Port → id ∈ mkeys s.ports) ∧
    (t = ObjectType.Node → id ∈ mkeys s.nodes) ∧
    (t = ObjectType.Link → id ∈ mkeys s.links) ∧
    (t = ObjectType.Client → id ∈ mkeys s.clients) ∧
    (t = ObjectType.Factory → ∃ kf, kf ∈ s.factories ∧ (kf : String × Factory).2.id = id)

/-- Direction 2 of claim C5 (spec I1): every id in a per-type map is in the
type index with the correct tag (for factories, the stored value's id). -/
def mapsToIndex (s : PipewireState) : Prop :=
  (∀ id ∈ mkeys s.ports, mget s.object_types id = some ObjectType.Port) ∧
  (∀ id ∈ mkeys s.nodes, mget s.object_types id = some ObjectType.Node) ∧
  (∀ id ∈ mkeys s.links, mget s.object_types id = some ObjectType.Link) ∧
  (∀ id ∈ mkeys s.clients, mget s.object_types id = some ObjectType.Client) ∧
  (∀ kf ∈ s.factories,
    mget s.object_types (kf : String × Factory).2.id = some ObjectType.Factory)

/-- Claim C5's conjoined invariant. -/
def storeConsistent (s : PipewireState) : Prop :=
  typeIndexComplete s ∧ mapsToIndex s

/-- The type tag corresponding to an object payload. -/
def objTag : PipewireObject → ObjectType
  | PipewireObject.Port _ => ObjectType.Port
  | PipewireObject.Node _ => ObjectType.Node
  | PipewireObject.Link _ => ObjectType.Link
  | PipewireObject.Client _ => ObjectType.Client
  | PipewireObject.Factory _ => ObjectType.Factory

/-- The id carried by an object payload. -/
def objId : PipewireObject → Nat
  | PipewireObject.Port p => p.id
  | PipewireObject.Node n => n.id
  | PipewireObject.Link l => l.id
  | PipewireObject.Client c => c.id
  | PipewireObject.Factory f => f.id

/-- Whether the store currently holds `id` under the given tag's map (for
factories: some stored value has that id). -/
def idHeldWithTag (s : PipewireState) (id : Nat) : ObjectType → Bool
  | ObjectType.Port => (mget s.ports id).isSome
  | ObjectType.Node => (mget s.nodes id).isSome
  | ObjectType.Link => (mget s.links id).isSome
  | ObjectType.Client => (mget s.clients id).isSome
  | ObjectType.Factory => s.factories.any (fun kf => decide (kf.2.id = id))
  | ObjectType.Other => false

/-- Every object type tag of the model. -/
def allTags : List ObjectType :=
  [ObjectType.Port, ObjectType.Node, ObjectType.Link, ObjectType.Client,
    ObjectType.Factory, ObjectType.Other]

/-- A well-formed delivery: a `NewGlobal` whose payload variant matches the
tag, whose payload carries the event id, and whose id is not currently held
under any other tag (the graph server assigns session-unique ids and recycles
one only after its removal).  Removal events are always well formed. -/
def eventWFb (s : PipewireState) : PipewireMessage → Bool
  | PipewireMessage.NewGlobal id t o =>
    decide (objTag o = t) && decide (objId o = id) &&
      allTags.all (fun t2 => decide (t2 = t) || !(idHeldWithTag s id t2))
  | PipewireMessage.GlobalRemoved _ => true

/-- Every event of the trace is well formed in the state it is applied to. -/
def wfTraceb (s : PipewireState) : List PipewireMessage → Bool
  | [] => true
  | m :: ms => eventWFb s m && wfTraceb (applyMsg s m) ms

/-- The far-side rule consulted by `new_port_for_rules` for a port of the
given direction. -/
def farRule (lr : LinkRules) : Direction → Rule
  | Direction.Input => lr.output
  | Direction.Output => lr.input

/-- The near-side rule (`r1` in `new_port_for_rules`) for a port of the
given direction. -/
def nearRule (lr : LinkRules) : Direction → Rule
  | Direction.Input => lr.input
  | Direction.Output => lr.output

/-- The Boolean port-regex conjunct of `add_if_matches`. -/
def portCondB (r : Rule) (p : Port) : Bool :=
  match r.port with
  | some regex => (matches_entirely regex p.name).getD false
  | none => true

/-- The Boolean node-regex conjunct of `add_if_matches`. -/
def nodeCondB (r : Rule) (p : Port) (s : PipewireState) : Bool :=
  match r.node, mget s.nodes p.node_id with
  | some regex, some n => (matches_entirely regex n.node_name).getD false
  | some _, none => false
  | none, _ => true

/-- The Boolean client-regex conjunct of `add_if_matches`. -/
def clientCondB (r : Rule) (p : Port) (s : PipewireState) : Bool :=
  match r.client, (mget s.nodes p.node_id).bind (fun n => mget s.clients n.client_id) with
  | some regex, some c => (matches_entirely regex c.application_name).getD false
  | some _, none => false
  | none, _ => true

/-! Concrete fixtures used by the closed evaluation theorems and the
witnesses below. -/

/-- A regex compiler whose every output matches nothing (the claims settled
here never depend on the regex engine's semantics). -/
def compileNone : String → Regex := fun _ => { findFirst := fun _ => none }

/-- A concrete port: id 5, Left channel, input direction, on node 6. -/
def port5 : Port :=
  { id := 5, local_port_id := 0, path := none, node_id := 6, dsp := none,
    channel := Channel.Left, name := "capture_FL", direction := Direction.Input,
    «alias» := "Mic:capture_FL", physical := none, terminal := none }

/-- A concrete port: id 7, Left channel, output direction, on node 8. -/
def port7 : Port :=
  { id := 7, local_port_id := 0, path := none, node_id := 8, dsp := none,
    channel := Channel.Left, name := "output_FL", direction := Direction.Output,
    «alias» := "App:output_FL", physical := none, terminal := none }

/-- A concrete node with id 5 (for the retagging step of the C5 witness). -/
def node5 : Node :=
  { id := 5, path := none, factory_id := none, client_id := 2, device_id := none,
    application_name := none, node_description := none, node_name := "Mic",
    node_nick := none, media_type := none, media_category := none,
    media_class := none, media_role := none }

/-- A store snapshot holding only `port7`. -/
def snapshot7 : PipewireState :=
  { emptyState with object_types := [(7, ObjectType.Port)], ports := [(7, port7)] }

/-- An environment over `snapshot7` whose create requests are all discarded
by the server. -/
def env7 : Env := { snapshot := snapshot7, createLink := fun _ _ _ => none }

/-- An environment over the empty store. -/
def envEmpty : Env := { snapshot := emptyState, createLink := fun _ _ _ => none }

/-- A compiled rule with no regexes (spec-equal to compiling the empty
target clause) and `special_empty_ports` set. -/
def ruleFree (name : String) : Rule :=
  { name, client := none, node := none, port := none, matching_ports := [],
    special_empty_ports := true,
    original_config := NodeOrTarget.Target { client := none, node := none, port := none } }

/-- The concrete no-regex rule named `a`. -/
def ruleA : Rule := ruleFree "a"

/-- A rule pair for the fixtures: input side has matched port 5, output side
port 7. -/
def lrPair : LinkRules :=
  { name := "a",
    input := { ruleFree "a" with matching_ports := [5] },
    output := { ruleFree "a" with matching_ports := [7] },
    links := [] }

/-- A daemon owning only the rule pair `lrPair` under the name `a`. -/
def daemonA : PipeswitchDaemon := { rules := [("a", lrPair)], linger_links := false }

/-- A reloaded configuration that keeps `linger_links` off and drops every
`[link]` block (in particular the block `a`). -/
def cfgDropA : Config :=
  { general := { linger_links := false, hotreload_config := false },
    log := { level := LogLevel.info }, links := [] }

/-- A daemon-created link (id 9) between the matched ports of `lrPair`. -/
def link9 : Link :=
  { id := 9, factory_id := 1, client_id := none, output_node := 8, output_port := 7,
    input_node := 6, input_port := 5, rule_name := some "a" }

/-- A registry global of type Link with schema version 2 (not `VERSION`). -/
def gLinkV2 : GlobalObject :=
  { id := 9, version := 2, type_ := ObjectType.Link, props := some [] }

/-- A registry global of type Port with schema version 2 (not `VERSION`). -/
def gPortV2 : GlobalObject :=
  { id := 5, version := 2, type_ := ObjectType.Port, props := some [] }

/-- The info callback payload for the link global `gLinkV2`. -/
def infoLink9 : LinkInfo :=
  { id := 9, output_node := 8, output_port := 7, input_node := 6, input_port := 5,
    props := some [("factory.id", "1"), (KEY_RULE_NAME, "a")] }

/-- A Port global with schema version 3 whose properties carry
`audio.channel = FL` together with `port.id = 2`. -/
def gPortFL2 : GlobalObject :=
  { id := 11, version := 3, type_ := ObjectType.Port,
    props := some
      [("port.id", "2"), ("node.id", "6"), ("audio.channel", "FL"),
        ("port.name", "playback_FL"), ("port.direction", "in"),
        ("port.alias", "App:playback_FL")] }

/-- The messages of the C5 witness trace: a port appears, is removed, and its
id is recycled for a node. -/
def traceC5 : List PipewireMessage :=
  [PipewireMessage.NewGlobal 5 ObjectType.Port (PipewireObject.Port port5),
    PipewireMessage.GlobalRemoved 5,
    PipewireMessage.NewGlobal 5 ObjectType.Node (PipewireObject.Node node5)]

/-- A concrete factory (id 3) providing the link interface. -/
def factory3 : Factory :=
  { id := 3, module_id := 1, name := "link-factory",
    type_name := "PipeWire:Interface:Link" }

/-- A store holding only `factory3`, registered in the type index. -/
def stateFactory3 : PipewireState :=
  { object_types := [(3, ObjectType.Factory)], ports := [], nodes := [], links := [],
    clients := [], factories := [("PipeWire:Interface:Link", factory3)] }

/-! Association-list and id-set lemmas. -/

theorem mget_isSome_iff {κ α : Type} [DecidableEq κ] (m : List (κ × α)) (k : κ) :
    (mget m k).isSome = true ↔ k ∈ mkeys m := by
  induction m with
  | nil => simp [mget, mkeys]
  | cons kv rest ih =>
    obtain ⟨k2, v⟩ := kv
    by_cases h : k = k2
    · subst h; simp [mget, mkeys]
    · simp [mget, mkeys, h, ih]

theorem mget_mremove_ne {κ α : Type} [DecidableEq κ] (m : List (κ × α)) (k k2 : κ)
    (h : k2 ≠ k) : mget (mremove m k) k2 = mget m k2 := by
  induction m with
  | nil => rfl
  | cons kv rest ih =>
    obtain ⟨k3, v⟩ := kv
    by_cases h3 : k = k3
    · subst h3; simp [mremove, mget, h, ih]
    · by_cases h2 : k2 = k3
      · subst h2; simp [mremove, mget, h3, Ne.symm h3]
      · simp [mremove, mget, h3, h2, ih]

theorem mget_minsert_self {κ α : Type} [DecidableEq κ] (m : List (κ × α)) (k : κ) (v : α) :
    mget (minsert m k v) k = some v := by
  simp [minsert, mget]

theorem mget_minsert_ne {κ α : Type} [DecidableEq κ] (m : List (κ × α)) (k k2 : κ) (v : α)
    (h : k2 ≠ k) : mget (minsert m k v) k2 = mget m k2 := by
  simp [minsert, mget, h, mget_mremove_ne m k k2 h]

theorem mem_mkeys_of_mremove {κ α : Type} [DecidableEq κ] (m : List (κ × α)) (k k2 : κ)
    (h : k2 ∈ mkeys (mremove m k)) : k2 ∈ mkeys m := by
  induction m with
  | nil => simp [mremove, mkeys] at h
  | cons kv rest ih =>
    obtain ⟨k3, v⟩ := kv
    by_cases h3 : k = k3
    · subst h3
      simp only [mremove, if_pos rfl] at h
      exact List.mem_cons_of_mem _ (ih h)
    · simp only [mremove, if_neg h3, mkeys, List.map_cons, List.mem_cons] at h ⊢
      rcases h with h | h
      · exact Or.inl h
      · exact Or.inr (ih h)

theorem mem_of_mremove {κ α : Type} [DecidableEq κ] (m : List (κ × α)) (k : κ)
    (x : κ × α) (h : x ∈ mremove m k) : x ∈ m := by
  induction m with
  | nil => simp [mremove] at h
  | cons kv rest ih =>
    obtain ⟨k3, v⟩ := kv
    by_cases h3 : k = k3
    · subst h3
      simp only [mremove, if_pos rfl] at h
      exact List.mem_cons_of_mem _ (ih h)
    · simp only [mremove, if_neg h3, List.mem_cons] at h ⊢
      rcases h with h | h
      · exact Or.inl h
      · exact Or.inr (ih h)

theorem mem_mkeys_minsert_elim {κ α : Type} [DecidableEq κ] (m : List (κ × α))
    (k k2 : κ) (v : α) (h : k2 ∈ mkeys (minsert m k v)) : k2 = k ∨ k2 ∈ mkeys m := by
  simp only [minsert, mkeys, List.map_cons, List.mem_cons] at h
  rcases h with h | h
  · exact Or.inl h
  · exact Or.inr (mem_mkeys_of_mremove m k k2 h)

theorem mem_mkeys_mremove_of_ne {κ α : Type} [DecidableEq κ] (m : List (κ × α))
    (k k2 : κ) (hne : k2 ≠ k) (h : k2 ∈ mkeys m) : k2 ∈ mkeys (mremove m k) := by
  induction m with
  | nil => simp [mkeys] at h
  | cons kv rest ih =>
    obtain ⟨k3, v⟩ := kv
    simp only [mkeys, List.map_cons, List.mem_cons] at h
    by_cases h3 : k = k3
    · subst h3
      rcases h with h | h
      · exact absurd h hne
      · simp only [mremove, if_pos rfl]; exact ih h
    · simp only [mremove, if_neg h3, mkeys, List.map_cons, List.mem_cons]
      rcases h with h | h
      · exact Or.inl h
      · exact Or.inr (ih h)

theorem mem_mkeys_minsert_of_mem {κ α : Type} [DecidableEq κ] (m : List (κ × α))
    (k k2 : κ) (v : α) (h : k2 ∈ mkeys m) : k2 ∈ mkeys (minsert m k v) := by
  by_cases hk : k2 = k
  · subst hk; simp [minsert, mkeys]
  · simp only [minsert, mkeys, List.map_cons, List.mem_cons]
    exact Or.inr (mem_mkeys_mremove_of_ne m k k2 hk h)

theorem mem_sinsert_self (s : List Nat) (x : Nat) : x ∈ sinsert s x := by
  by_cases h : x ∈ s <;> simp [sinsert, h]

theorem mem_sinsert_of_mem (s : List Nat) (x y : Nat) (h : y ∈ s) : y ∈ sinsert s x := by
  by_cases hx : x ∈ s <;> simp [sinsert, hx, h]

/-! Rule compilation and rule matching. -/

theorem from_node_or_target_original (compile : String → Regex) (n : String) (sp : Bool)
    (c : NodeOrTarget) : (Rule.from_node_or_target compile n sp c).original_config = c := by
  cases c <;> rfl

theorem matches_entirely_getD_iff (rex : Regex) (t : String) :
    ((matches_entirely rex t).getD false = true) ↔ entireMatch rex t := by
  unfold matches_entirely entireMatch
  cases h : rex.findFirst t with
  | none => simp [h]
  | some m => obtain ⟨a, b⟩ := m; simp [h]

theorem portCondB_iff (r : Rule) (p : Port) :
    portCondB r p = true ↔ (∀ rex, r.port = some rex → entireMatch rex p.name) := by
  cases hP : r.port <;> simp [portCondB, hP, matches_entirely_getD_iff]

theorem nodeCondB_iff (r : Rule) (p : Port) (s : PipewireState) :
    nodeCondB r p s = true ↔
      (∀ rex, r.node = some rex →
        ∃ n, mget s.nodes p.node_id = some n ∧ entireMatch rex n.node_name) := by
  cases hR : r.node <;> cases hN : mget s.nodes p.node_id <;>
    simp [nodeCondB, hR, hN, matches_entirely_getD_iff]

theorem clientCondB_iff (r : Rule) (p : Port) (s : PipewireState) :
    clientCondB r p s = true ↔
      (∀ rex, r.client = some rex →
        ∃ n c, mget s.nodes p.node_id = some n ∧ mget s.clients n.client_id = some c ∧
          entireMatch rex c.application_name) := by
  cases hR : r.client with
  | none => cases hN : mget s.nodes p.node_id <;> simp [clientCondB, hR, hN]
  | some rex =>
    cases hN : mget s.nodes p.node_id with
    | none => simp [clientCondB, hR, hN]
    | some n =>
      cases hC : mget s.clients n.client_id <;>
        simp [clientCondB, hR, hN, hC, matches_entirely_getD_iff]

theorem add_if_matches_eq (r : Rule) (p : Port) (s : PipewireState) :
    r.add_if_matches p s =
      (if portCondB r p then
        (if nodeCondB r p s && clientCondB r p s then
          ({ r with matching_ports := sinsert r.matching_ports p.id }, true)
        else (r, false))
      else (r, false)) := rfl

theorem add_if_matches_snd (r : Rule) (p : Port) (s : PipewireState) :
    (r.add_if_matches p s).2 = (portCondB r p && (nodeCondB r p s && clientCondB r p s)) := by
  rw [add_if_matches_eq]
  cases hp : portCondB r p
  · simp
  · cases hnc : (nodeCondB r p s && clientCondB r p s) <;> simp [hnc]

theorem add_if_matches_fst (r : Rule) (p : Port) (s : PipewireState) :
    (r.add_if_matches p s).1 =
      { r with matching_ports :=
          if (r.add_if_matches p s).2 = true then sinsert r.matching_ports p.id
          else r.matching_ports } := by
  rw [add_if_matches_eq]
  cases hp : portCondB r p
  · simp
  · cases hnc : (nodeCondB r p s && clientCondB r p s) <;> simp [hnc]

theorem add_if_matches_snd_iff (r : Rule) (p : Port) (s : PipewireState) :
    (r.add_if_matches p s).2 = true ↔ ruleMatchSpec r p s := by
  rw [add_if_matches_snd]
  unfold ruleMatchSpec
  simp only [Bool.and_eq_true]
  rw [portCondB_iff, nodeCondB_iff, clientCondB_iff]

/-- C8: two compiled Rules are equal iff their original source clauses are
structurally equal (regex objects are never compared); in particular rules
compiled from equal clauses are equal, and compiling the same clause twice
with the same name and flag yields equal Rules. -/
theorem claim_C8 :
    (∀ a b : Rule, a.eqRule b = true ↔ a.original_config = b.original_config) ∧
    (∀ (compile compile2 : String → Regex) (n n2 : String) (sp sp2 : Bool)
        (c c2 : NodeOrTarget),
      (Rule.from_node_or_target compile n sp c).eqRule
          (Rule.from_node_or_target compile2 n2 sp2 c2) = true ↔ c = c2) ∧
    (∀ (compile : String → Regex) (n : String) (sp : Bool) (c : NodeOrTarget),
      (Rule.from_node_or_target compile n sp c).eqRule
          (Rule.from_node_or_target compile n sp c) = true) := by
  refine ⟨fun a b => ?_, fun compile compile2 n n2 sp sp2 c c2 => ?_,
    fun compile n sp c => ?_⟩
  · simp [Rule.eqRule]
  · simp [Rule.eqRule, from_node_or_target_original]
  · simp [Rule.eqRule, from_node_or_target_original]

/-- Witness for C8 at a concrete clause. -/
theorem claim_C8_witness :
    (Rule.from_node_or_target compileNone "a" true (NodeOrTarget.NodeName "Mic")).eqRule
      (Rule.from_node_or_target compileNone "a" true (NodeOrTarget.NodeName "Mic")) = true :=
  claim_C8.2.2 compileNone "a" true (NodeOrTarget.NodeName "Mic")

/-- C3: `add_if_matches` returns true exactly when every present regex of the
rule matches entirely against the port's name, the resolved node's node_name
and the resolved client's application_name (a present regex whose target
does not resolve fails); and it inserts the port's id into `matching_ports`
exactly when it returns true. -/
theorem claim_C3 : ∀ (r : Rule) (p : Port) (s : PipewireState),
    ((r.add_if_matches p s).2 = true ↔ ruleMatchSpec r p s) ∧
    (r.add_if_matches p s).1 =
      { r with matching_ports :=
          if (r.add_if_matches p s).2 = true then sinsert r.matching_ports p.id
          else r.matching_ports } :=
  fun r p s => ⟨add_if_matches_snd_iff r p s, add_if_matches_fst r p s⟩

/-- Witness for C3 at a concrete rule, port and store. -/
theorem claim_C3_witness :
    ((ruleA.add_if_matches port5 emptyState).2 = true ↔
      ruleMatchSpec ruleA port5 emptyState) ∧
    (ruleA.add_if_matches port5 emptyState).1 =
      { ruleA with matching_ports :=
          if (ruleA.add_if_matches port5 emptyState).2 = true then
            sinsert ruleA.matching_ports port5.id
          else ruleA.matching_ports } :=
  claim_C3 ruleA port5 emptyState

/-! Channel handling and the pairing guard. -/

theorem add_if_matches_port_field (r : Rule) (p : Port) (s : PipewireState) :
    (r.add_if_matches p s).1.port = r.port := by
  rw [add_if_matches_fst]

theorem add_if_matches_special_field (r : Rule) (p : Port) (s : PipewireState) :
    (r.add_if_matches p s).1.special_empty_ports = r.special_empty_ports := by
  rw [add_if_matches_fst]

theorem should_ignore_channel_iff (r1 r2 : Rule) :
    r1.should_ignore_channel r2 = true ↔
      (r1.special_empty_ports = false ∨ r1.port.isSome = true ∨ r2.port.isSome = true) := by
  simp [Rule.should_ignore_channel, Bool.or_eq_true, Bool.not_eq_true']

theorem should_ignore_channel_false (r1 r2 : Rule) (hs : r1.special_empty_ports = true)
    (h1 : r1.port = none) (h2 : r2.port = none) :
    r1.should_ignore_channel r2 = false := by
  simp [Rule.should_ignore_channel, hs, h1, h2]

theorem farRequests_channel (env : Env) (r1 r2 : Rule) (port : Port) (nm : String)
    (hig : r1.should_ignore_channel r2 = false) :
    ∀ (ids : List Nat) (reqs : List CreateReq),
      farRequests env r1 r2 port nm ids = some reqs →
      ∀ req ∈ reqs, req.oldPort.channel = port.channel := by
  intro ids
  induction ids with
  | nil =>
    intro reqs h req hreq
    simp only [farRequests, Option.some.injEq] at h
    subst h
    simp at hreq
  | cons a rest ih =>
    intro reqs h req hreq
    simp only [farRequests] at h
    cases hg : mget env.snapshot.ports a with
    | none => rw [hg] at h; exact absurd h (by simp)
    | some p =>
      rw [hg, hig] at h
      simp only [Bool.false_or] at h
      by_cases hc : port.channel = p.channel
      · rw [if_pos (by simp [hc])] at h
        obtain ⟨l, hl, hcons⟩ := Option.map_eq_some'.1 h
        subst hcons
        rcases List.mem_cons.1 hreq with h1 | h1
        · subst h1; exact hc.symm
        · exact ih l hl req h1
      · rw [if_neg (by simp [hc])] at h
        exact ih reqs h req hreq

theorem farRequests_newPort (env : Env) (r1 r2 : Rule) (port : Port) (nm : String) :
    ∀ (ids : List Nat) (reqs : List CreateReq),
      farRequests env r1 r2 port nm ids = some reqs →
      ∀ req ∈ reqs, req.newPort = port := by
  intro ids
  induction ids with
  | nil =>
    intro reqs h req hreq
    simp only [farRequests, Option.some.injEq] at h
    subst h
    simp at hreq
  | cons a rest ih =>
    intro reqs h req hreq
    simp only [farRequests] at h
    cases hg : mget env.snapshot.ports a with
    | none => rw [hg] at h; exact absurd h (by simp)
    | some p =>
      rw [hg] at h
      dsimp only at h
      by_cases hc : (r1.should_ignore_channel r2 || decide (port.channel = p.channel)) = true
      · rw [if_pos hc] at h
        obtain ⟨l, hl, hcons⟩ := Option.map_eq_some'.1 h
        subst hcons
        rcases List.mem_cons.1 hreq with h1 | h1
        · subst h1; rfl
        · exact ih l hl req h1
      · rw [if_neg hc] at h
        exact ih reqs h req hreq

theorem processRule_same_channel (env : Env) (port : Port) (lr : LinkRules)
    (res : LinkRules × List CreateReq)
    (hres : processRule env port lr = some res)
    (hsp : (nearRule lr port.direction).special_empty_ports = true)
    (hip : lr.input.port = none) (hop : lr.output.port = none) :
    ∀ req ∈ res.2, req.newPort = port ∧ req.oldPort.channel = port.channel := by
  intro req hreq
  cases hd : port.direction with
  | Input =>
    rw [hd] at hsp
    simp only [nearRule] at hsp
    simp only [processRule, hd] at hres
    have hig : ((lr.input.add_if_matches port env.snapshot).1).should_ignore_channel
        lr.output = false :=
      should_ignore_channel_false _ _
        ((add_if_matches_special_field _ _ _).trans hsp)
        ((add_if_matches_port_field _ _ _).trans hip) hop
    by_cases hm : (lr.input.add_if_matches port env.snapshot).2 = true
    · rw [if_pos hm] at hres
      obtain ⟨reqs, hreqs, hres2⟩ := Option.map_eq_some'.1 hres
      have : res.2 = reqs := by rw [← hres2]
      rw [this] at hreq
      exact ⟨farRequests_newPort env _ lr.output port lr.name _ reqs hreqs req hreq,
        farRequests_channel env _ lr.output port lr.name hig _ reqs hreqs req hreq⟩
    · rw [if_neg hm] at hres
      have : res.2 = [] := by
        cases hres2 : res with
        | mk a b =>
          rw [hres2] at hres
          simp only [Option.some.injEq, Prod.mk.injEq] at hres
          simp [← hres.2]
      rw [this] at hreq
      simp at hreq
  | Output =>
    rw [hd] at hsp
    simp only [nearRule] at hsp
    simp only [processRule, hd] at hres
    have hig : ((lr.output.add_if_matches port env.snapshot).1).should_ignore_channel
        lr.input = false :=
      should_ignore_channel_false _ _
        ((add_if_matches_special_field _ _ _).trans hsp)
        ((add_if_matches_port_field _ _ _).trans hop) hip
    by_cases hm : (lr.output.add_if_matches port env.snapshot).2 = true
    · rw [if_pos hm] at hres
      obtain ⟨reqs, hreqs, hres2⟩ := Option.map_eq_some'.1 hres
      have : res.2 = reqs := by rw [← hres2]
      rw [this] at hreq
      exact ⟨farRequests_newPort env _ lr.input port lr.name _ reqs hreqs req hreq,
        farRequests_channel env _ lr.input port lr.name hig _ reqs hreqs req hreq⟩
    · rw [if_neg hm] at hres
      have : res.2 = [] := by
        cases hres2 : res with
        | mk a b =>
          rw [hres2] at hres
          simp only [Option.some.injEq, Prod.mk.injEq] at hres
          simp [← hres.2]
      rw [this] at hreq
      simp at hreq

/-- C4: `should_ignore_channel(r1, r2)` is true exactly when
`special_empty_ports` is off on the near side or either side carries a port
regex; consequently, with `special_empty_ports` on and no port regex on
either side, every create request issued by the pairing step joins two
equal-channel ports — in particular a Left-channel port is never paired with
a Right-channel port, whichever of the two ports is the arriving one. -/
theorem claim_C4 :
    (∀ r1 r2 : Rule, r1.should_ignore_channel r2 = true ↔
      (r1.special_empty_ports = false ∨ r1.port.isSome = true ∨ r2.port.isSome = true)) ∧
    (∀ (env : Env) (port : Port) (lr : LinkRules) (res : LinkRules × List CreateReq),
      processRule env port lr = some res →
      (nearRule lr port.direction).special_empty_ports = true →
      lr.input.port = none → lr.output.port = none →
      ∀ req ∈ res.2, req.newPort.channel = req.oldPort.channel ∧
        ¬(req.newPort.channel = Channel.Left ∧ req.oldPort.channel = Channel.Right) ∧
        ¬(req.newPort.channel = Channel.Right ∧ req.oldPort.channel = Channel.Left)) := by
  constructor
  · exact should_ignore_channel_iff
  · intro env port lr res hres hsp hip hop req hreq
    obtain ⟨hnew, hold⟩ := processRule_same_channel env port lr res hres hsp hip hop req hreq
    have hcc : req.newPort.channel = req.oldPort.channel := by
      rw [hnew]
      exact hold.symm
    refine ⟨hcc, ?_, ?_⟩
    · rintro ⟨h1, h2⟩
      rw [h1, h2] at hcc
      cases hcc
    · rintro ⟨h1, h2⟩
      rw [h1, h2] at hcc
      cases hcc

/-- Witness for C4: the Left-arriving `port5` against the stored Left
`port7` issues a request, and every issued request joins equal channels and
is no Left-Right pair in either orientation. -/
theorem claim_C4_witness :
    ∀ req ∈ ((processRule env7 port5 lrPair).getD (lrPair, [])).2,
      req.newPort.channel = req.oldPort.channel ∧
        ¬(req.newPort.channel = Channel.Left ∧ req.oldPort.channel = Channel.Right) ∧
        ¬(req.newPort.channel = Channel.Right ∧ req.oldPort.channel = Channel.Left) :=
  claim_C4.2 env7 port5 lrPair ((processRule env7 port5 lrPair).getD (lrPair, []))
    rfl rfl rfl rfl

/-! The incoming-link handler. -/

/-- C2: `new_link` attaches a link to every live rule of its `rule_name`
whose matching-port sets contain both endpoints and then requests no
destruction; when no rule attaches and `linger_links` is off, destruction is
requested; a link without a `rule_name` changes nothing and requests
nothing. -/
theorem claim_C2 : ∀ (d : PipeswitchDaemon) (link : Link),
    (∀ r lr, link.rule_name = some r → (r, lr) ∈ d.rules →
      link.input_port ∈ lr.input.matching_ports →
      link.output_port ∈ lr.output.matching_ports →
      (r, { lr with links := sinsert lr.links link.id }) ∈ (new_link d link).1.rules ∧
        (new_link d link).2 = false) ∧
    (∀ r, link.rule_name = some r →
      (∀ lr, (r, lr) ∈ d.rules →
        ¬(link.input_port ∈ lr.input.matching_ports ∧
          link.output_port ∈ lr.output.matching_ports)) →
      d.linger_links = false → (new_link d link).2 = true) ∧
    (link.rule_name = none → new_link d link = (d, false)) := by
  intro d link
  refine ⟨?_, ?_, ?_⟩
  · intro r lr hr hmem hin hout
    have hhit : linkHits link r (r, lr) = true := decide_eq_true ⟨rfl, hin, hout⟩
    constructor
    · have hmm := List.mem_map_of_mem
        (fun p => if linkHits link r p then
          (p.1, { p.2 with links := sinsert p.2.links link.id }) else p) hmem
      simp only [new_link, hr]
      simpa [hhit] using hmm
    · have hex : d.rules.any (linkHits link r) = true :=
        List.any_eq_true.2 ⟨(r, lr), hmem, hhit⟩
      simp [new_link, hr, hex]
  · intro r hr hno hlin
    have hex : d.rules.any (linkHits link r) = false := by
      rw [List.any_eq_false]
      intro p hp
      intro hcontra
      obtain ⟨h1, h2a, h2b⟩ := of_decide_eq_true hcontra
      obtain ⟨p1, p2⟩ := p
      dsimp only at h1
      subst h1
      exact hno p2 hp ⟨h2a, h2b⟩
    simp [new_link, hr, hex, hlin]
  · intro h
    simp [new_link, h]

/-- Witness for C2: attaching `link9` to the live rule `a` of `daemonA`. -/
theorem claim_C2_witness :
    ("a", { lrPair with links := sinsert lrPair.links link9.id }) ∈
      (new_link daemonA link9).1.rules ∧ (new_link daemonA link9).2 = false :=
  (claim_C2 daemonA link9).1 "a" lrPair rfl (List.mem_singleton.mpr rfl)
    (by decide) (by decide)

/-! Frame effects of removal events on the store. -/

theorem process_removed_nonmapped (s : PipewireState) (id : Nat) (t : ObjectType)
    (hT : mget s.object_types id = some t)
    (h1 : t ≠ ObjectType.Port) (h2 : t ≠ ObjectType.Node)
    (h3 : t ≠ ObjectType.Link) (h4 : t ≠ ObjectType.Client) :
    process_message s (PipewireMessage.GlobalRemoved id) = (s, none) := by
  cases t with
  | Port => exact absurd rfl h1
  | Node => exact absurd rfl h2
  | Link => exact absurd rfl h3
  | Client => exact absurd rfl h4
  | Factory => simp [process_message, hT]
  | Other => simp [process_message, hT]

theorem factories_keys_mono_step (s : PipewireState) (m : PipewireMessage) :
    ∀ k ∈ mkeys s.factories, k ∈ mkeys (applyMsg s m).factories := by
  intro k hk
  cases m with
  | NewGlobal id t o =>
    cases o with
    | Port p => exact hk
    | Node n => exact hk
    | Link l => exact hk
    | Client c => exact hk
    | Factory f =>
      exact mem_mkeys_minsert_of_mem s.factories f.type_name k f hk
  | GlobalRemoved id =>
    cases hT : mget s.object_types id with
    | none => simpa [applyMsg, process_message, hT] using hk
    | some t => cases t <;> simpa [applyMsg, process_message, hT] using hk

/-- C10: removing an id whose recorded tag is none of Port, Node, Link or
Client (notably Factory) returns no object and leaves the whole store — in
particular all five per-type maps — unchanged; and no sequence of applied
events ever shrinks the factories map's key set. -/
theorem claim_C10 :
    (∀ (s : PipewireState) (id : Nat) (t : ObjectType),
      mget s.object_types id = some t →
      t ≠ ObjectType.Port → t ≠ ObjectType.Node → t ≠ ObjectType.Link →
      t ≠ ObjectType.Client →
      process_message s (PipewireMessage.GlobalRemoved id) = (s, none)) ∧
    (∀ (s : PipewireState) (ms : List PipewireMessage),
      ∀ k ∈ mkeys s.factories, k ∈ mkeys (applyMessages s ms).factories) := by
  constructor
  · exact process_removed_nonmapped
  · intro s ms
    induction ms generalizing s with
    | nil => intro k hk; exact hk
    | cons m rest ih =>
      intro k hk
      exact ih (applyMsg s m) k (factories_keys_mono_step s m k hk)

/-- Witness for C10: removing the factory id 3 from `stateFactory3` is a
no-op, and a removal trace keeps the factories key. -/
theorem claim_C10_witness :
    process_message stateFactory3 (PipewireMessage.GlobalRemoved 3) = (stateFactory3, none) ∧
    "PipeWire:Interface:Link" ∈
      mkeys (applyMessages stateFactory3 [PipewireMessage.GlobalRemoved 3]).factories :=
  ⟨claim_C10.1 stateFactory3 3 ObjectType.Factory rfl (by decide) (by decide) (by decide)
      (by decide),
    claim_C10.2 stateFactory3 [PipewireMessage.GlobalRemoved 3] "PipeWire:Interface:Link"
      (by decide)⟩

/-! Reachability of the pairing step's port lookups. -/

theorem farRequests_isSome (env : Env) (r1 r2 : Rule) (port : Port) (nm : String)
    (ids : List Nat) (h : ∀ pid ∈ ids, pid ∈ mkeys env.snapshot.ports) :
    (farRequests env r1 r2 port nm ids).isSome = true := by
  induction ids with
  | nil => rfl
  | cons a rest ih =>
    have ha : (mget env.snapshot.ports a).isSome = true :=
      (mget_isSome_iff _ _).2 (h a (List.mem_cons_self a rest))
    cases hg : mget env.snapshot.ports a with
    | none => rw [hg] at ha; cases ha
    | some p =>
      have ht := ih (fun pid hp => h pid (List.mem_cons_of_mem a hp))
      simp only [farRequests, hg]
      split
      · simpa using ht
      · exact ht

theorem processRule_isSome (env : Env) (port : Port) (lr : LinkRules)
    (h : ∀ pid ∈ (farRule lr port.direction).matching_ports,
      pid ∈ mkeys env.snapshot.ports) :
    (processRule env port lr).isSome = true := by
  cases hd : port.direction with
  | Input =>
    rw [hd] at h
    simp only [farRule] at h
    simp only [processRule, hd]
    split
    · simpa using farRequests_isSome env _ lr.output port lr.name lr.output.matching_ports h
    · rfl
  | Output =>
    rw [hd] at h
    simp only [farRule] at h
    simp only [processRule, hd]
    split
    · simpa using farRequests_isSome env _ lr.input port lr.name lr.input.matching_ports h
    · rfl

theorem processRules_isSome (env : Env) (port : Port) (names : List String)
    (rs : List (String × LinkRules))
    (h : ∀ nlr ∈ rs, ∀ pid ∈ (farRule (nlr : String × LinkRules).2 port.direction).matching_ports,
      pid ∈ mkeys env.snapshot.ports) :
    (processRules env port names rs).isSome = true := by
  induction rs with
  | nil => rfl
  | cons nlr rest ih =>
    obtain ⟨n, lr⟩ := nlr
    have h1 := h (n, lr) (List.mem_cons_self _ _)
    have hr := ih (fun x hx => h x (List.mem_cons_of_mem _ hx))
    simp only [processRules]
    by_cases hn : n ∈ names
    · have hps := processRule_isSome env port lr h1
      cases hpr : processRule env port lr with
      | none => rw [hpr] at hps; cases hps
      | some v =>
        cases hprs : processRules env port names rest with
        | none => rw [hprs] at hr; cases hr
        | some w => simp [hn, hpr, hprs]
    · cases hprs : processRules env port names rest with
      | none => rw [hprs] at hr; cases hr
      | some w => simp [hn, hprs]

/-- C9: in the pairing step, every far-side port id is looked up in the
store's ports map and unwrapped; when every far-side `matching_ports` set is
contained in the ports map's keys at each lookup, no lookup panics
(`new_port_for_rules` completes). -/
theorem claim_C9 : ∀ (env : Env) (d : PipeswitchDaemon) (port : Port) (names : List String),
    (∀ nlr ∈ d.rules,
      ∀ pid ∈ (farRule (nlr : String × LinkRules).2 port.direction).matching_ports,
        pid ∈ mkeys env.snapshot.ports) →
    (new_port_for_rules env d port names).isSome = true := by
  intro env d port names h
  unfold new_port_for_rules
  have := processRules_isSome env port names d.rules h
  cases hp : processRules env port names d.rules with
  | none => rw [hp] at this; cases this
  | some v => simp [hp]

/-- Witness for C9: the far side of `daemonA` for `port5` is port 7, present
in `snapshot7`. -/
theorem claim_C9_witness :
    (new_port_for_rules env7 daemonA port5 ["a"]).isSome = true :=
  claim_C9 env7 daemonA port5 ["a"] (by decide)

/-! Preservation of the map-to-index direction of the store invariant. -/

theorem preserve_other {α : Type} (idx : List (Nat × ObjectType)) (M : List (Nat × α))
    (id : Nat) (t t0 : ObjectType)
    (hold : ∀ id2 ∈ mkeys M, mget idx id2 = some t0)
    (hnot : (mget M id).isSome = false) :
    ∀ id2 ∈ mkeys M, mget (minsert idx id t) id2 = some t0 := by
  intro id2 h2
  by_cases he : id2 = id
  · subst he
    rw [(mget_isSome_iff M id2).2 h2] at hnot
    cases hnot
  · rw [mget_minsert_ne idx id id2 t he]
    exact hold id2 h2

theorem preserve_self {α : Type} (idx : List (Nat × ObjectType)) (M : List (Nat × α))
    (id : Nat) (t : ObjectType) (v : α)
    (hold : ∀ id2 ∈ mkeys M, mget idx id2 = some t) :
    ∀ id2 ∈ mkeys (minsert M id v), mget (minsert idx id t) id2 = some t := by
  intro id2 h2
  rcases mem_mkeys_minsert_elim M id id2 v h2 with he | hm
  · subst he
    exact mget_minsert_self idx id2 t
  · by_cases he : id2 = id
    · subst he
      exact mget_minsert_self idx id2 t
    · rw [mget_minsert_ne idx id id2 t he]
      exact hold id2 hm

theorem preserve_factories_other (idx : List (Nat × ObjectType))
    (F : List (String × Factory)) (id : Nat) (t : ObjectType)
    (hold : ∀ kf ∈ F, mget idx (kf : String × Factory).2.id = some ObjectType.Factory)
    (hnot : F.any (fun kf => decide (kf.2.id = id)) = false) :
    ∀ kf ∈ F, mget (minsert idx id t) (kf : String × Factory).2.id =
      some ObjectType.Factory := by
  intro kf hkf
  by_cases he : kf.2.id = id
  · exfalso
    have : F.any (fun kf => decide (kf.2.id = id)) = true :=
      List.any_eq_true.2 ⟨kf, hkf, decide_eq_true he⟩
    rw [this] at hnot
    cases hnot
  · rw [mget_minsert_ne idx id _ t he]
    exact hold kf hkf

theorem preserve_factories_self (idx : List (Nat × ObjectType))
    (F : List (String × Factory)) (f : Factory)
    (hold : ∀ kf ∈ F, mget idx (kf : String × Factory).2.id = some ObjectType.Factory) :
    ∀ kf ∈ minsert F f.type_name f,
      mget (minsert idx f.id ObjectType.Factory) (kf : String × Factory).2.id =
        some ObjectType.Factory := by
  intro kf hkf
  rcases List.mem_cons.1 hkf with he | hm
  · subst he
    exact mget_minsert_self idx f.id ObjectType.Factory
  · have hkF := mem_of_mremove F f.type_name kf hm
    by_cases he2 : kf.2.id = f.id
    · rw [he2]
      exact mget_minsert_self idx f.id ObjectType.Factory
    · rw [mget_minsert_ne idx f.id _ _ he2]
      exact hold kf hkF

theorem mapsToIndex_step (s : PipewireState) (m : PipewireMessage)
    (hs : mapsToIndex s) (hwf : eventWFb s m = true) :
    mapsToIndex (applyMsg s m) := by
  obtain ⟨hP, hN, hL, hC, hF⟩ := hs
  cases m with
  | GlobalRemoved id =>
    cases hT : mget s.object_types id with
    | none =>
      have hstate : applyMsg s (PipewireMessage.GlobalRemoved id) = s := by
        simp [applyMsg, process_message, hT]
      rw [hstate]
      exact ⟨hP, hN, hL, hC, hF⟩
    | some t =>
      cases t with
      | Port =>
        have hstate : applyMsg s (PipewireMessage.GlobalRemoved id) =
            { s with ports := mremove s.ports id } := by
          simp [applyMsg, process_message, hT]
        rw [hstate]
        exact ⟨fun id2 h2 => hP id2 (mem_mkeys_of_mremove _ _ _ h2), hN, hL, hC, hF⟩
      | Node =>
        have hstate : applyMsg s (PipewireMessage.GlobalRemoved id) =
            { s with nodes := mremove s.nodes id } := by
          simp [applyMsg, process_message, hT]
        rw [hstate]
        exact ⟨hP, fun id2 h2 => hN id2 (mem_mkeys_of_mremove _ _ _ h2), hL, hC, hF⟩
      | Link =>
        have hstate : applyMsg s (PipewireMessage.GlobalRemoved id) =
            { s with links := mremove s.links id } := by
          simp [applyMsg, process_message, hT]
        rw [hstate]
        exact ⟨hP, hN, fun id2 h2 => hL id2 (mem_mkeys_of_mremove _ _ _ h2), hC, hF⟩
      | Client =>
        have hstate : applyMsg s (PipewireMessage.GlobalRemoved id) =
            { s with clients := mremove s.clients id } := by
          simp [applyMsg, process_message, hT]
        rw [hstate]
        exact ⟨hP, hN, hL, fun id2 h2 => hC id2 (mem_mkeys_of_mremove _ _ _ h2), hF⟩
      | Factory =>
        have hstate : applyMsg s (PipewireMessage.GlobalRemoved id) = s := by
          simp [applyMsg, process_message, hT]
        rw [hstate]
        exact ⟨hP, hN, hL, hC, hF⟩
      | Other =>
        have hstate : applyMsg s (PipewireMessage.GlobalRemoved id) = s := by
          simp [applyMsg, process_message, hT]
        rw [hstate]
        exact ⟨hP, hN, hL, hC, hF⟩
  | NewGlobal id t o =>
    simp only [eventWFb, Bool.and_eq_true, decide_eq_true_eq, List.all_eq_true] at hwf
    obtain ⟨⟨htag, hid⟩, hfresh⟩ := hwf
    have fresh : ∀ t2, t2 ≠ t → idHeldWithTag s id t2 = false := by
      intro t2 hne
      have h2 := hfresh t2 (by cases t2 <;> simp [allTags])
      rw [Bool.or_eq_true] at h2
      rcases h2 with h | h
      · exact absurd (of_decide_eq_true h) hne
      · simpa using h
    cases o with
    | Port p =>
      simp only [objTag] at htag
      subst htag
      have hstate : applyMsg s (PipewireMessage.NewGlobal id ObjectType.Port
          (PipewireObject.Port p)) =
          { s with object_types := minsert s.object_types id ObjectType.Port, ports := minsert s.ports id p } := by
        simp [applyMsg, process_message]
      rw [hstate]
      refine ⟨preserve_self _ _ _ _ _ hP, ?_, ?_, ?_, ?_⟩
      · exact preserve_other _ _ _ _ _ hN (fresh ObjectType.Node (by simp))
      · exact preserve_other _ _ _ _ _ hL (fresh ObjectType.Link (by simp))
      · exact preserve_other _ _ _ _ _ hC (fresh ObjectType.Client (by simp))
      · exact preserve_factories_other _ _ _ _ hF (fresh ObjectType.Factory (by simp))
    | Node n =>
      simp only [objTag] at htag
      simp only [objId] at hid
      subst htag
      subst hid
      have hstate : applyMsg s (PipewireMessage.NewGlobal n.id ObjectType.Node
          (PipewireObject.Node n)) =
          { s with object_types := minsert s.object_types n.id ObjectType.Node, nodes := minsert s.nodes n.id n } := by
        simp [applyMsg, process_message]
      rw [hstate]
      refine ⟨?_, preserve_self _ _ _ _ _ hN, ?_, ?_, ?_⟩
      · exact preserve_other _ _ _ _ _ hP (fresh ObjectType.Port (by simp))
      · exact preserve_other _ _ _ _ _ hL (fresh ObjectType.Link (by simp))
      · exact preserve_other _ _ _ _ _ hC (fresh ObjectType.Client (by simp))
      · exact preserve_factories_other _ _ _ _ hF (fresh ObjectType.Factory (by simp))
    | Link l =>
      simp only [objTag] at htag
      simp only [objId] at hid
      subst htag
      subst hid
      have hstate : applyMsg s (PipewireMessage.NewGlobal l.id ObjectType.Link
          (PipewireObject.Link l)) =
          { s with object_types := minsert s.object_types l.id ObjectType.Link, links := minsert s.links l.id l } := by
        simp [applyMsg, process_message]
      rw [hstate]
      refine ⟨?_, ?_, preserve_self _ _ _ _ _ hL, ?_, ?_⟩
      · exact preserve_other _ _ _ _ _ hP (fresh ObjectType.Port (by simp))
      · exact preserve_other _ _ _ _ _ hN (fresh ObjectType.Node (by simp))
      · exact preserve_other _ _ _ _ _ hC (fresh ObjectType.Client (by simp))
      · exact preserve_factories_other _ _ _ _ hF (fresh ObjectType.Factory (by simp))
    | Client c =>
      simp only [objTag] at htag
      simp only [objId] at hid
      subst htag
      subst hid
      have hstate : applyMsg s (PipewireMessage.NewGlobal c.id ObjectType.Client
          (PipewireObject.Client c)) =
          { s with object_types := minsert s.object_types c.id ObjectType.Client, clients := minsert s.clients c.id c } := by
        simp [applyMsg, process_message]
      rw [hstate]
      refine ⟨?_, ?_, ?_, preserve_self _ _ _ _ _ hC, ?_⟩
      · exact preserve_other _ _ _ _ _ hP (fresh ObjectType.Port (by simp))
      · exact preserve_other _ _ _ _ _ hN (fresh ObjectType.Node (by simp))
      · exact preserve_other _ _ _ _ _ hL (fresh ObjectType.Link (by simp))
      · exact preserve_factories_other _ _ _ _ hF (fresh ObjectType.Factory (by simp))
    | Factory f =>
      simp only [objTag] at htag
      simp only [objId] at hid
      subst htag
      subst hid
      have hstate : applyMsg s (PipewireMessage.NewGlobal f.id ObjectType.Factory
          (PipewireObject.Factory f)) =
          { s with object_types := minsert s.object_types f.id ObjectType.Factory, factories := minsert s.factories f.type_name f } := by
        simp [applyMsg, process_message]
      rw [hstate]
      refine ⟨?_, ?_, ?_, ?_, preserve_factories_self _ _ _ hF⟩
      · exact preserve_other _ _ _ _ _ hP (fresh ObjectType.Port (by simp))
      · exact preserve_other _ _ _ _ _ hN (fresh ObjectType.Node (by simp))
      · exact preserve_other _ _ _ _ _ hL (fresh ObjectType.Link (by simp))
      · exact preserve_other _ _ _ _ _ hC (fresh ObjectType.Client (by simp))

theorem mapsToIndex_trace (ms : List PipewireMessage) :
    ∀ s, mapsToIndex s → wfTraceb s ms = true → mapsToIndex (applyMessages s ms) := by
  induction ms with
  | nil => intro s hs _; exact hs
  | cons m rest ih =>
    intro s hs hwf
    simp only [wfTraceb, Bool.and_eq_true] at hwf
    exact ih (applyMsg s m) (mapsToIndex_step s m hs hwf.1) hwf.2

/-- C5 (amended): along every well-formed event trace from the empty store,
every id held by a per-type map is registered in the type index with the
correct tag — including after `Removed` events.  (The converse direction of
the original claim fails: removal never prunes the type index.) -/
theorem claim_C5 : ∀ ms : List PipewireMessage, wfTraceb emptyState ms = true →
    mapsToIndex (applyMessages emptyState ms) :=
  fun ms h =>
    mapsToIndex_trace ms emptyState (by simp [mapsToIndex, emptyState, mkeys]) h

/-- Counterexample to C5 as stated: after a port appears and is removed, its
id is still registered in the type index with tag Port, but the ports map no
longer contains it, so the claimed two-directional consistency fails. -/
theorem claim_C5_counterexample :
    ¬ storeConsistent
        (applyMessages emptyState
          [PipewireMessage.NewGlobal 5 ObjectType.Port (PipewireObject.Port port5),
            PipewireMessage.GlobalRemoved 5]) := by
  intro h
  have hidx : mget (applyMessages emptyState
      [PipewireMessage.NewGlobal 5 ObjectType.Port (PipewireObject.Port port5),
        PipewireMessage.GlobalRemoved 5]).object_types 5 = some ObjectType.Port := by
    decide
  have h5 := (h.1 5 ObjectType.Port hidx).1 rfl
  exact absurd h5 (by decide)

/-- Witness for C5 on a concrete well-formed trace that creates, removes and
recycles id 5. -/
theorem claim_C5_witness :
    wfTraceb emptyState traceC5 = true ∧
      mapsToIndex (applyMessages emptyState traceC5) :=
  ⟨by decide, claim_C5 traceC5 (by decide)⟩

/-! Version checking at the registry dispatcher. -/

/-- C6 (amended): every non-Link global whose schema version differs from the
compiled-in protocol version is rejected with `InvalidVersion` before any
object is produced; Link globals bypass the check entirely (they are admitted
from the proxy's info callback, see the counterexample). -/
theorem claim_C6 : ∀ (g : GlobalObject) (info : LinkInfo),
    g.type_ ≠ ObjectType.Link → g.version ≠ VERSION →
    handle_new_global g info =
      some (GlobalResult.rejected (PipewireError.InvalidVersion g.version)) := by
  intro g info hL hV
  have hfg : PipewireObject.from_global g =
      Except.error (PipewireError.InvalidVersion g.version) := by
    unfold PipewireObject.from_global
    rw [if_pos hV]
  cases hT : g.type_ with
  | Link => exact absurd hT hL
  | Port => simp [handle_new_global, hT, hfg]
  | Node => simp [handle_new_global, hT, hfg]
  | Client => simp [handle_new_global, hT, hfg]
  | Factory => simp [handle_new_global, hT, hfg]
  | Other => simp [handle_new_global, hT, hfg]

/-- Counterexample to C6 as stated: a Link global with version 2 is admitted
into the typed object model (as `link9`) instead of failing with
`InvalidVersion` — `handle_new_global` never consults a link's version. -/
theorem claim_C6_counterexample :
    gLinkV2.version ≠ VERSION ∧
    handle_new_global gLinkV2 infoLink9 =
      some (GlobalResult.admitted (PipewireObject.Link link9)) := by
  constructor
  · decide
  · decide

/-- Witness for C6 on a version-2 Port global. -/
theorem claim_C6_witness :
    handle_new_global gPortV2 infoLink9 =
      some (GlobalResult.rejected (PipewireError.InvalidVersion gPortV2.version)) :=
  claim_C6 gPortV2 infoLink9 (by decide) (by decide)

/-! Channel derivation during port construction. -/

/-- C7: evaluation of the code at the failing input.  `gPortFL2` carries a
present, valid audio-channel property `FL`, yet construction fails with
`InvalidChannel "port.id 2"` because Rust evaluates `unwrap_or`'s argument
`Channel::from_portid(local_port_id)?` eagerly; the claim instead promises
channel Left whenever the property holds `FL`. -/
theorem claim_C7 :
    mget (gPortFL2.props.getD []) AUDIO_CHANNEL = some "FL" ∧
    mget (gPortFL2.props.getD []) PORT_ID = some "2" ∧
    Port.from_global gPortFL2 =
      Except.error (PipewireError.InvalidChannel "port.id 2") := by
  refine ⟨rfl, rfl, ?_⟩
  decide

/-! The diff-reload procedure of the daemon. -/

/-- C1: evaluation of the code at the failing input.  The daemon owns rule
`a`; the reloaded configuration `cfgDropA` has no `[link.a]` block, yet after
`update_config` the rule map still contains `a` — the `(Some(curr), None)`
arm destroys the old rule's links and counts the rule as removed but never
removes the entry, while the claim requires every name absent from the new
configuration to be dropped. -/
theorem claim_C1 :
    mget cfgDropA.links "a" = none ∧
    (update_config envEmpty compileNone daemonA cfgDropA).map
        (fun d => (mget d.rules "a").isSome) = some true := by
  constructor
  · rfl
  · rfl

end Pipeswitch
